import Mathlib

/-!
Verification of the receipt-scanner result model and extraction heuristics
(`ocr_space.py`): the OCR.space result model (word / line / overlay /
parsed-result / result), the table-reconstruction algorithm `tableize`, and
the `ReceiptSummary` field-extraction heuristics (`vendor`, `date`,
`total_guess`).

Python strings are modelled as `List Char` (`PyStr`).  The embedding mirrors
the source line by line: truthiness tests (`if parsed_text_lines:`,
`if total_guess:`, `return total_guess or "n.a."`) are made explicit, machine
floats produced by `float(...)` on strings shaped `\d+[.,]\d{2}` are modelled
exactly as rationals, and code that can raise (the `datetime` constructor) is
modelled with `Except`.  Regular-expression searches are unfolded into the
equivalent explicit scans (for the patterns used in the source, the greedy
`\d+`-runs admit no backtracking, so the unfolding is exact for texts over
the modelled character classes; character classes `\w`, `\s`, `\d` and
case-insensitivity are modelled over their ASCII fragments).
-/

/-- Python strings, modelled as lists of characters. -/
def PyStr := List Char
deriving DecidableEq, Inhabited, Repr

/-- Python `str.isspace` characters (the ASCII ones). -/
def pyIsSpace (c : Char) : Bool :=
  c = ' ' || c = '\t' || c = '\n' || c = '\r' || c = '\x0b' || c = '\x0c'

/-- Python `\w` word characters (ASCII fragment): alphanumerics and `_`. -/
def pyIsWordChar (c : Char) : Bool := c.isAlphanum || c = '_'

/-- Python `str.strip()`: drop leading and trailing whitespace. -/
def pyStrip (s : List Char) : List Char :=
  ((s.dropWhile pyIsSpace).reverse.dropWhile pyIsSpace).reverse

/-- Python `str.split(sep)` for a one-character separator: always returns at
least one (possibly empty) group. -/
def pySplitChar (sep : Char) : List Char → List (List Char)
  | [] => [[]]
  | c :: cs =>
    match pySplitChar sep cs with
    | [] => [[]]
    | g :: gs => if c = sep then [] :: g :: gs else (c :: g) :: gs

/-- Python `str.splitlines()` for texts whose only line separator is `'\n'`:
the empty string yields no lines, and a trailing newline does not produce a
final empty line. -/
def splitlines (s : List Char) : List PyStr :=
  if s.isEmpty then []
  else if s.getLast? = some '\n' then (pySplitChar '\n' s).dropLast
  else pySplitChar '\n' s

/-- Substring containment on character lists (models `re.search` of a plain
literal pattern: true iff the needle occurs somewhere in the haystack). -/
def containsSub (needle : List Char) : List Char → Bool
  | [] => needle.isEmpty
  | c :: cs => needle.isPrefixOf (c :: cs) || containsSub needle cs

/-- Numeric value of a digit string, as Python `int` reads it. -/
def natOfDigits (ds : List Char) : ℕ :=
  ds.foldl (fun a c => a * 10 + (c.toNat - 48)) 0

/-! ## The OCR.space result model (`ocr_space.py`, classes `OCRSpaceWord`,
`OCRSpaceLine`, `OCRSpaceOverlay`, `OCRSpaceParsedResult`, `OCRSpaceResult`) -/

/-- `OCRSpaceWord`: one recognized word with its bounding box. -/
structure OCRSpaceWord where
  word_text : PyStr
  left : ℤ
  top : ℤ
  height : ℤ
  width : ℤ
deriving DecidableEq, Repr

/-- `OCRSpaceWord.bottom` property. -/
def OCRSpaceWord.bottom (w : OCRSpaceWord) : ℤ := w.top + w.height

/-- `OCRSpaceWord.right` property. -/
def OCRSpaceWord.right (w : OCRSpaceWord) : ℤ := w.left + w.width

/-- `OCRSpaceLine`: one recognized text line and its words. -/
structure OCRSpaceLine where
  line_text : PyStr
  words : List OCRSpaceWord
  max_height : ℤ
  min_top : ℤ
deriving DecidableEq, Repr

/-- `OCRSpaceLine.left_bound`: `min` of the words' `left`, or `-1` when the
line has no words. -/
def OCRSpaceLine.left_bound (l : OCRSpaceLine) : ℤ :=
  match (l.words.map OCRSpaceWord.left).min? with
  | some v => v
  | none => -1

/-- `OCRSpaceLine.right_bound`: `max` of the words' `right`, or `-1` when the
line has no words. -/
def OCRSpaceLine.right_bound (l : OCRSpaceLine) : ℤ :=
  match (l.words.map OCRSpaceWord.right).max? with
  | some v => v
  | none => -1

/-- `OCRSpaceLine.lower_bound`: `max` of the words' `bottom`; the source
implicitly returns `None` when the line has no words. -/
def OCRSpaceLine.lower_bound (l : OCRSpaceLine) : Option ℤ :=
  (l.words.map OCRSpaceWord.bottom).max?

/-- `OCRSpaceLine.upper_bound`: `min` of the words' `top`; the source
implicitly returns `None` when the line has no words. -/
def OCRSpaceLine.upper_bound (l : OCRSpaceLine) : Option ℤ :=
  (l.words.map OCRSpaceWord.top).min?

/-- `OCRSpaceLine.is_same_line`: the two lines' vertical spans overlap.
On lines with words the `Option` bounds are present; an absent bound is
undefined behaviour in the source (comparison with `None` raises), modelled
here by defaulting to `0` outside the domain the theorems quantify over. -/
def OCRSpaceLine.is_same_line (l other : OCRSpaceLine) : Bool :=
  let selfhigh := (l.upper_bound).getD 0
  let selfbottom := (l.lower_bound).getD 0
  let otherhigh := (other.upper_bound).getD 0
  let otherbottom := (other.lower_bound).getD 0
  selfhigh ≤ otherbottom && otherhigh ≤ selfbottom

/-- `OCRSpaceOverlay`: the per-page collection of lines. -/
structure OCRSpaceOverlay where
  lines : List OCRSpaceLine
deriving DecidableEq, Repr

/-- Insert an element into a list, in front of the first element it is
`le`-below: the inner step of a stable insertion sort. -/
def insertByLe (le : α → α → Bool) (a : α) : List α → List α
  | [] => [a]
  | b :: bs => if le a b then a :: b :: bs else b :: insertByLe le a bs

/-- Stable insertion sort.  Python's `sorted` / `list.sort` are stable sorts,
and a stable sort's output is uniquely determined by the key order, so this
models them exactly (while staying kernel-reducible). -/
def stableSortByLe (le : α → α → Bool) : List α → List α
  | [] => []
  | a :: as => insertByLe le a (stableSortByLe le as)

/-- Inserting is a permutation with consing. -/
theorem insertByLe_perm (le : α → α → Bool) (a : α) (l : List α) :
    (insertByLe le a l).Perm (a :: l) := by
  induction l with
  | nil => simp [insertByLe]
  | cons b bs ih =>
    by_cases h : le a b = true
    · simp [insertByLe, h]
    · simp only [insertByLe, h, if_false]
      exact (ih.cons b).trans (List.Perm.swap a b bs)

/-- Sorting is a permutation. -/
theorem stableSortByLe_perm (le : α → α → Bool) (l : List α) :
    (stableSortByLe le l).Perm l := by
  induction l with
  | nil => exact List.Perm.refl _
  | cons a as ih =>
    exact (insertByLe_perm le a (stableSortByLe le as)).trans (ih.cons a)

/-- `OCRSpaceOverlay.lines_sorted_by_upperbound`: stable sort of the lines by
`upper_bound` ascending (Python `sorted` with that key; on a line without
words the source would raise when comparing `None`). -/
def OCRSpaceOverlay.lines_sorted_by_upperbound (o : OCRSpaceOverlay) : List OCRSpaceLine :=
  stableSortByLe (fun a b => (a.upper_bound).getD 0 ≤ (b.upper_bound).getD 0) o.lines

/-- Sorting one reconstructed row by column, `table[-1].sort(key=lambda col:
col.left_bound)`: stable sort by `left_bound` ascending. -/
def sortRowByLeftBound (row : List OCRSpaceLine) : List OCRSpaceLine :=
  stableSortByLe (fun a b => a.left_bound ≤ b.left_bound) row

/-- The loop of `OCRSpaceParsedResult.tableize`, with the mutable `table`
split into the already-closed row-groups (each sorted by column when it was
closed) and the still-open last row-group kept in append order.  The anchor
compared against is `table[-1][0]`, the first line of the open row-group.
When the loop ends, the open row-group is appended **without** being sorted
by column (the source has no trailing finalize step). -/
def tableizeLoop : List (List OCRSpaceLine) → List OCRSpaceLine → List OCRSpaceLine →
    List (List OCRSpaceLine)
  | closed, cur, [] => closed ++ [cur]
  | closed, cur, line :: rest =>
    match cur with
    | [] => tableizeLoop closed [line] rest
    | anchor :: _ =>
      if anchor.is_same_line line then
        tableizeLoop closed (cur ++ [line]) rest
      else
        tableizeLoop (closed ++ [sortRowByLeftBound cur]) [line] rest

/-- `OCRSpaceParsedResult.tableize`: sort the overlay's lines vertically,
then group consecutive lines into row-groups via `is_same_line` against the
first line of the open row-group, sorting a row-group by `left_bound` only
when it is closed mid-loop. -/
def tableize (o : OCRSpaceOverlay) : List (List OCRSpaceLine) :=
  match o.lines_sorted_by_upperbound with
  | [] => []
  | l :: rest => tableizeLoop [] [l] rest

/-- Executable check that consecutive lines of a row-group are non-decreasing
in `left_bound`. -/
def rowOrderedByLeftBoundB : List OCRSpaceLine → Bool
  | [] => true
  | [_] => true
  | a :: b :: rest => (a.left_bound ≤ b.left_bound) && rowOrderedByLeftBoundB (b :: rest)

/-- A row-group internally ordered non-decreasing by `left_bound`. -/
def rowOrderedByLeftBound (row : List OCRSpaceLine) : Prop :=
  rowOrderedByLeftBoundB row = true

instance (row : List OCRSpaceLine) : Decidable (rowOrderedByLeftBound row) :=
  inferInstanceAs (Decidable (rowOrderedByLeftBoundB row = true))

/-- Total number of words across all row-groups of a reconstructed table. -/
def tableWordCount (t : List (List OCRSpaceLine)) : ℕ :=
  (t.map (fun row => (row.map (fun l => l.words.length)).sum)).sum

/-- Total number of words across an overlay's lines. -/
def overlayWordCount (o : OCRSpaceOverlay) : ℕ :=
  (o.lines.map (fun l => l.words.length)).sum

/-! ## Concrete overlay used for the table-reconstruction claims.
Two one-word lines on the same visual row (vertical spans [0,10] and [1,11]),
with the later line further LEFT (left 5 vs 10), so that the single — hence
final — row-group is produced in the order (left 10, left 5). -/

/-- Word of the first line: box at left 10, top 0, 10 high, 5 wide. -/
def wordA : OCRSpaceWord := ⟨"A".toList, 10, 0, 10, 5⟩

/-- Word of the second line: box at left 5, top 1, 10 high, 5 wide. -/
def wordB : OCRSpaceWord := ⟨"B".toList, 5, 1, 10, 5⟩

/-- First line: single word at left 10, vertical span [0, 10]. -/
def rowLineA : OCRSpaceLine := ⟨"A".toList, [wordA], 10, 0⟩

/-- Second line: single word at left 5, vertical span [1, 11]. -/
def rowLineB : OCRSpaceLine := ⟨"B".toList, [wordB], 10, 1⟩

/-- Overlay holding the two same-row lines. -/
def ovTwoLines : OCRSpaceOverlay := ⟨[rowLineA, rowLineB]⟩

/-! ## Parsed-result and result models -/

/-- `OCRSpaceParsedResult`: one page's parse outcome. -/
structure OCRSpaceParsedResult where
  overlay : OCRSpaceOverlay
  file_parse_exit_code : ℤ
  text_orientation : PyStr
  parsed_text : PyStr
  error_message : Option PyStr
  error_details : Option PyStr
deriving DecidableEq, Repr

/-- `OCRSpaceResult`: the whole provider response, as a value.  (How the
source's `from_dict` actually stores these fields — in class-level slots — is
modelled separately below.) -/
structure OCRSpaceResult where
  parsed_results : List OCRSpaceParsedResult
  ocr_exit_code : ℤ
  is_errored_on_processing : Bool
  processing_time_in_milliseconds : ℚ
  searchable_pdf_url : Option PyStr
deriving DecidableEq, Repr

/-- Embeds `OCRSpaceResult.from_dict`.  The source binds `ret =
OCRSpaceResult` — the CLASS object, not a fresh instance — so every field
assignment writes a class-level attribute shared by every value this factory
has ever returned, and the returned reference is that same class object.  The
class's attribute slots are modelled as an explicit state (`none` while the
attributes are unassigned) threaded through calls; the decoded input
dictionary is modelled by the record of its already-converted field values. -/
def OCRSpaceResult_from_dict (dictobj : OCRSpaceResult)
    (_classState : Option OCRSpaceResult) : Option OCRSpaceResult :=
  -- ret = OCRSpaceResult; ret.parsed_results = [...]; ...; return ret
  some { parsed_results := dictobj.parsed_results
         ocr_exit_code := dictobj.ocr_exit_code
         is_errored_on_processing := dictobj.is_errored_on_processing
         processing_time_in_milliseconds := dictobj.processing_time_in_milliseconds
         searchable_pdf_url := dictobj.searchable_pdf_url }

/-- Reading `OCRSpaceResult.ocr_exit_code` through any reference returned by
`from_dict` reads the shared class-level slot. -/
def class_ocr_exit_code (classState : Option OCRSpaceResult) : Option ℤ :=
  classState.map OCRSpaceResult.ocr_exit_code

/-- Reading `OCRSpaceResult.parsed_results` through any reference returned by
`from_dict` reads the shared class-level slot. -/
def class_parsed_results (classState : Option OCRSpaceResult) :
    Option (List OCRSpaceParsedResult) :=
  classState.map OCRSpaceResult.parsed_results

/-! ## ReceiptSummary -/

/-- `ReceiptSummary` state: the backing result and the total-guess cache.
(The unused `items` list initialized by `__init__` is omitted.) -/
structure ReceiptSummary where
  ocrspace_results : Option OCRSpaceResult
  cached_total_guess : Option ℕ
deriving DecidableEq, Repr

/-- The `ocrspace_results` setter: clears `_cached_total_guess`, then stores
the new result. -/
def set_ocrspace_results (s : ReceiptSummary) (results : OCRSpaceResult) :
    ReceiptSummary :=
  { s with cached_total_guess := none, ocrspace_results := some results }

/-- A summary as built by `fromOCRSpaceJsonResponse`: `ReceiptSummary()`
followed by the `ocrspace_results` setter. -/
def summaryOfResult (results : OCRSpaceResult) : ReceiptSummary :=
  set_ocrspace_results ⟨none, none⟩ results

/-- `ReceiptSummary.parsed_text_lines`: the first page's `parsed_text`, split
into lines; `None` when no result is attached.  (On a result whose
`parsed_results` is empty the source raises `IndexError` at
`parsed_results[0]`; the claims quantify over results with at least one
page.) -/
def parsed_text_lines (s : ReceiptSummary) : Option (List PyStr) :=
  match s.ocrspace_results with
  | some results =>
    match results.parsed_results with
    | r0 :: _ => some (splitlines r0.parsed_text)
    | [] => none
  | none => none

/-- Truthiness of `parsed_text_lines` (`None` and the empty list are falsy). -/
def truthyLines : Option (List PyStr) → Bool
  | none => false
  | some lines => !lines.isEmpty

/-! ## Total-guess machinery -/

/-- ASCII-uppercased copy, for `re.IGNORECASE` comparisons. -/
def upperAscii (s : List Char) : List Char := s.map Char.toUpper

/-- Case-insensitive substring search (a plain-literal `pattern.search`). -/
def containsCI (needle hay : List Char) : Bool :=
  containsSub (upperAscii needle) (upperAscii hay)

/-- Case-insensitive `search` of a `^`-anchored literal: a prefix test. -/
def startsWithCI (needle hay : List Char) : Bool :=
  (upperAscii needle).isPrefixOf (upperAscii hay)

/-- The four compiled label patterns of `ReceiptSummary.total_guess_patterns`,
in source order. -/
inductive TotalPattern
  | totaleComplessivo
  | totaleAnchored
  | importoPagato
  | subtotale
deriving DecidableEq, Repr

/-- `pattern.search(line)` for each of the four patterns: three plain
case-insensitive substring searches and one `^`-anchored prefix test. -/
def patternSearch : TotalPattern → List Char → Bool
  | .totaleComplessivo, s => containsCI "TOTALE COMPLESSIVO".toList s
  | .totaleAnchored, s => startsWithCI "TOTALE".toList s
  | .importoPagato, s => containsCI "IMPORTO PAGATO".toList s
  | .subtotale, s => containsCI "SUBTOTALE".toList s

/-- `ReceiptSummary.total_guess_patterns` in order. -/
def total_guess_patterns : List TotalPattern :=
  [.totaleComplessivo, .totaleAnchored, .importoPagato, .subtotale]

/-- Attempt to match the amount shape (one or more digits, then `.` or `,`,
then exactly two digits) at the head of the text, greedily as the regex does:
returns the integer part and the two-digit decimal part.  Because the digit
run is consumed greedily and shrinking it would put a digit where the
separator must be, the regex admits no backtracking here, so this is exact. -/
def matchAmountAt (cs : List Char) : Option (ℕ × ℕ) :=
  let run := cs.takeWhile Char.isDigit
  if run.isEmpty then none
  else
    match cs.drop run.length with
    | sep :: d1 :: d2 :: _ =>
      if (sep = '.' || sep = ',') && d1.isDigit && d2.isDigit then
        some (natOfDigits run, natOfDigits [d1, d2])
      else none
    | _ => none

/-- `re.search` of the amount shape over the last column: first position with
a match, scanning left to right. -/
def searchAmount : List Char → Option (ℕ × ℕ)
  | [] => none
  | c :: cs =>
    match matchAmountAt (c :: cs) with
    | some p => some p
    | none => searchAmount cs

/-- Exact value of `float(matched.replace(",", "."))` on a matched amount,
represented in cents (integer part times 100 plus the two decimal digits).
Two-decimal amounts below the float-precision threshold round to distinct
floats and 0.0 corresponds to 0 cents, so float equality and truthiness
transfer exactly to this representation. -/
def amountValue (p : ℕ × ℕ) : ℕ := p.1 * 100 + p.2

/-- The inner `for line in parsed_text_lines` loop of `total_guess` under one
pattern: on a line whose stripped text matches the pattern, split the
stripped line on tabs; with at least two columns and an amount-shaped number
in the LAST column, the parsed value overwrites the running guess and the
loop breaks; otherwise the scan continues.  (`float` on a matched shape never
raises, so the source's `except ValueError` branch is unreachable.) -/
def total_guess_line_scan (pattern : TotalPattern) :
    List PyStr → Option ℕ → Option ℕ
  | [], total_guess => total_guess
  | line :: rest, total_guess =>
    if patternSearch pattern (pyStrip line) then
      let total_line_columns := pySplitChar '\t' (pyStrip line)
      if total_line_columns.length > 1 then
        match searchAmount (total_line_columns.getLastD []) with
        | some guess_match => some (amountValue guess_match)
        | none => total_guess_line_scan pattern rest total_guess
      else total_guess_line_scan pattern rest total_guess
    else total_guess_line_scan pattern rest total_guess

/-- Python float truthiness of the running guess: `None` and `0.0` are
falsy. -/
def truthyGuess : Option ℕ → Bool
  | none => false
  | some v => v != 0

/-- The outer `for pattern in total_guess_patterns` loop: after scanning the
lines under one pattern, `if total_guess: break` leaves the loop only when
the running guess is truthy (present and nonzero). -/
def total_guess_pattern_scan (lines : List PyStr) :
    List TotalPattern → Option ℕ → Option ℕ
  | [], total_guess => total_guess
  | pattern :: rest, total_guess =>
    let total_guess := total_guess_line_scan pattern lines total_guess
    if truthyGuess total_guess then total_guess
    else total_guess_pattern_scan lines rest total_guess

/-- The value `total_guess` returns: a float (represented exactly in cents),
or the sentinel string `"n.a."`. -/
inductive TotalGuess
  | num (cents : ℕ)
  | na
deriving DecidableEq, Repr

/-- `return total_guess or "n.a."`: a `None` or `0.0` guess yields the
sentinel. -/
def totalOrNA : Option ℕ → TotalGuess
  | some v => if v = 0 then TotalGuess.na else TotalGuess.num v
  | none => TotalGuess.na

/-- `ReceiptSummary.total_guess`, as a function of the summary state,
returning the result together with the post-call state.  Mirrors the source:
an early return of the cached value when the cache is truthy, then the nested
pattern/line scan guarded by the truthiness of `parsed_text_lines`, finally
`return total_guess or "n.a."`.  The method never assigns
`_cached_total_guess` (the local variable `total_guess` shadows it), so the
returned state is the input state unchanged. -/
def total_guess (s : ReceiptSummary) : TotalGuess × ReceiptSummary :=
  let lines? := parsed_text_lines s
  if truthyGuess s.cached_total_guess then
    (TotalGuess.num (s.cached_total_guess.getD 0), s)
  else
    let guess : Option ℕ :=
      if truthyLines lines? then
        total_guess_pattern_scan (lines?.getD []) total_guess_patterns none
      else none
    (totalOrNA guess, s)

/-- The first page's lines of a result value (empty when there are no
pages). -/
def linesOfResult (results : OCRSpaceResult) : List PyStr :=
  match results.parsed_results with
  | r0 :: _ => splitlines r0.parsed_text
  | [] => []

/-- `total_guess` of a freshly built summary over a result. -/
def total_guess_of (results : OCRSpaceResult) : TotalGuess :=
  (total_guess (summaryOfResult results)).1

/-! ## Spec-side restatement of the total-guess scan (for claim C6):
per-pattern first extraction, then the first nonzero extraction wins. -/

/-- Spec-side: the first value extracted under one pattern — first matching
line with at least two tab columns and an amount in the last column. -/
def patternExtract (pattern : TotalPattern) : List PyStr → Option ℕ
  | [] => none
  | line :: rest =>
    if patternSearch pattern (pyStrip line) then
      let cols := pySplitChar '\t' (pyStrip line)
      if cols.length > 1 then
        match searchAmount (cols.getLastD []) with
        | some p => some (amountValue p)
        | none => patternExtract pattern rest
      else patternExtract pattern rest
    else patternExtract pattern rest

/-- Spec-side: the first pattern (in order) whose extraction is nonzero. -/
def firstNonzeroExtract (lines : List PyStr) : List TotalPattern → Option ℕ
  | [] => none
  | pattern :: rest =>
    match patternExtract pattern lines with
    | some v => if v ≠ 0 then some v else firstNonzeroExtract lines rest
    | none => firstNonzeroExtract lines rest

/-- Spec-side total guess: the first nonzero per-pattern extraction, else the
sentinel. -/
def totalGuessSpec (lines : List PyStr) : TotalGuess :=
  match firstNonzeroExtract lines total_guess_patterns with
  | some v => TotalGuess.num v
  | none => TotalGuess.na

/-! ## Concrete results used by the total-guess claims -/

/-- A one-page parsed result carrying only text (overlay empty). -/
def mkParsedResult (text : PyStr) : OCRSpaceParsedResult :=
  ⟨⟨[]⟩, 1, [], text, none, none⟩

/-- A one-page result carrying only text. -/
def mkResult (text : PyStr) : OCRSpaceResult :=
  ⟨[mkParsedResult text], 1, false, 0, none⟩

/-- Summary over a one-line receipt `TOTALE<TAB>12,50`. -/
def summaryC3 : ReceiptSummary := summaryOfResult (mkResult "TOTALE\t12,50\n".toList)

/-- A different result, used to exercise the `ocrspace_results` setter. -/
def resultC3b : OCRSpaceResult := mkResult "IMPORTO PAGATO\t3,00".toList

/-- The spec's worked example text. -/
def resultExample : OCRSpaceResult :=
  mkResult "STORE X\n01/02/2024 10:15\nTOTALE\t\t12,50\n".toList

/-- A decoded response with `OCRExitCode` 1. -/
def resultDictA : OCRSpaceResult := mkResult "A".toList

/-- A decoded response with `OCRExitCode` 2 and different text. -/
def resultDictB : OCRSpaceResult :=
  { mkResult "B".toList with ocr_exit_code := 2 }

/-! ## Vendor heuristic -/

/-- `re.sub` replacing every character that is not a word character or
whitespace with the empty string: keep only word characters and
whitespace. -/
def keepWordSpace (s : List Char) : List Char :=
  s.filter (fun c => pyIsWordChar c || pyIsSpace c)

/-- The sentinel `ReceiptSummary.TOTAL_GUESS_NOT_AVALABLE_STRING`. -/
def TOTAL_GUESS_NOT_AVALABLE_STRING : PyStr := "n.a.".toList

/-- `ReceiptSummary.vendor`: when the line list is truthy (present and
nonempty), `lines[0]` with all characters outside word characters and
whitespace removed, then stripped; the final `vendor or sentinel` returns
the sentinel when the guess is `None` or the empty string. -/
def vendor (s : ReceiptSummary) : PyStr :=
  let vendorGuess : Option PyStr :=
    match parsed_text_lines s with
    | some (line0 :: _) => some (pyStrip (keepWordSpace line0))
    | _ => none
  match vendorGuess with
  | some v => if v.isEmpty then TOTAL_GUESS_NOT_AVALABLE_STRING else v
  | none => TOTAL_GUESS_NOT_AVALABLE_STRING

/-- `vendor` of a freshly built summary over a result. -/
def vendor_of (results : OCRSpaceResult) : PyStr :=
  vendor (summaryOfResult results)

/-- Spec-side reading of claim C4: take the first NON-empty line, keep word
characters and whitespace, strip; an empty outcome (or no non-empty line)
gives the sentinel. -/
def vendorClaimSpec (lines : List PyStr) : PyStr :=
  match lines.dropWhile (fun l : PyStr => l.isEmpty) with
  | [] => TOTAL_GUESS_NOT_AVALABLE_STRING
  | line0 :: _ =>
    let cleaned := pyStrip (keepWordSpace line0)
    if cleaned.isEmpty then TOTAL_GUESS_NOT_AVALABLE_STRING else cleaned

/-- Spec-side amended reading: take the FIRST line (even when it is empty),
keep word characters and whitespace, strip; an empty outcome or an empty
line list gives the sentinel. -/
def vendorSpecAmended (lines : List PyStr) : PyStr :=
  match lines with
  | [] => TOTAL_GUESS_NOT_AVALABLE_STRING
  | line0 :: _ =>
    let cleaned := pyStrip (keepWordSpace line0)
    if cleaned.isEmpty then TOTAL_GUESS_NOT_AVALABLE_STRING else cleaned

/-! ## Date heuristic -/

/-- Digit run at the head of the text (greedy one-or-more-digits). -/
def digitRun (cs : List Char) : List Char := cs.takeWhile Char.isDigit

/-- The numeric groups captured by `ReceiptSummary.date_pattern`
(day, month, year, hour, minute, optional second). -/
structure DateGroups where
  day : ℕ
  month : ℕ
  year : ℕ
  hour : ℕ
  minute : ℕ
  second : Option ℕ
deriving DecidableEq, Repr

/-- The pattern's date-separator class: `-` or `/`. -/
def isDateSep (c : Char) : Bool := c = '-' || c = '/'

/-- The pattern's time-separator class: `:` or `.`. -/
def isTimeSep (c : Char) : Bool := c = ':' || c = '.'

/-- Attempt to match `date_pattern` at the head of the text.  Each digit or
whitespace run is consumed greedily, exactly as the regex does: shrinking a
run would place a member of the same class where the following separator is
required, so the regex admits no backtracking here and this unfolding is
exact.  The trailing seconds group is optional. -/
def matchDateAt (cs : List Char) : Option DateGroups :=
  let dayRun := digitRun cs
  if dayRun.isEmpty then none
  else
    match cs.drop dayRun.length with
    | c1 :: rest1 =>
      if isDateSep c1 then
        let monthRun := digitRun rest1
        if monthRun.isEmpty then none
        else
          match rest1.drop monthRun.length with
          | c2 :: rest2 =>
            if isDateSep c2 then
              let yearRun := digitRun rest2
              if yearRun.isEmpty then none
              else
                let afterYear := rest2.drop yearRun.length
                let wsRun := afterYear.takeWhile pyIsSpace
                if wsRun.isEmpty then none
                else
                  let afterWs := afterYear.drop wsRun.length
                  let hourRun := digitRun afterWs
                  if hourRun.isEmpty then none
                  else
                    match afterWs.drop hourRun.length with
                    | c3 :: rest3 =>
                      if isTimeSep c3 then
                        let minuteRun := digitRun rest3
                        if minuteRun.isEmpty then none
                        else
                          let afterMinute := rest3.drop minuteRun.length
                          let secondGroup : Option ℕ :=
                            match afterMinute with
                            | c4 :: rest4 =>
                              if isTimeSep c4 then
                                let secondRun := digitRun rest4
                                if secondRun.isEmpty then none
                                else some (natOfDigits secondRun)
                              else none
                            | [] => none
                          some ⟨natOfDigits dayRun, natOfDigits monthRun,
                            natOfDigits yearRun, natOfDigits hourRun,
                            natOfDigits minuteRun, secondGroup⟩
                      else none
                    | [] => none
            else none
          | [] => none
      else none
    | [] => none

/-- `date_pattern.search(line)`: the match at the first matching position,
scanning left to right. -/
def searchDate : List Char → Option DateGroups
  | [] => none
  | c :: cs =>
    match matchDateAt (c :: cs) with
    | some g => some g
    | none => searchDate cs

/-- Gregorian leap year, as the `datetime` module determines it. -/
def isLeapYear (y : ℕ) : Bool :=
  y % 4 == 0 && (y % 100 != 0 || y % 400 == 0)

/-- Days in a month, as the `datetime` constructor validates the day. -/
def daysInMonth (y m : ℕ) : ℕ :=
  if m = 2 then (if isLeapYear y then 29 else 28)
  else if m = 4 || m = 6 || m = 9 || m = 11 then 30
  else 31

/-- A constructed `datetime.datetime` value. -/
structure PyDatetime where
  year : ℕ
  month : ℕ
  day : ℕ
  hour : ℕ
  minute : ℕ
  second : ℕ
deriving DecidableEq, Repr

/-- Validity of the arguments of `datetime(year, month, day, hour, minute,
second)`; out-of-range arguments make the constructor raise `ValueError`. -/
def validDatetimeArgs (y m d hh mm ss : ℕ) : Prop :=
  1 ≤ y ∧ y ≤ 9999 ∧ 1 ≤ m ∧ m ≤ 12 ∧ 1 ≤ d ∧ d ≤ daysInMonth y m
    ∧ hh ≤ 23 ∧ mm ≤ 59 ∧ ss ≤ 59

instance (y m d hh mm ss : ℕ) : Decidable (validDatetimeArgs y m d hh mm ss) :=
  inferInstanceAs (Decidable (1 ≤ y ∧ y ≤ 9999 ∧ 1 ≤ m ∧ m ≤ 12 ∧ 1 ≤ d
    ∧ d ≤ daysInMonth y m ∧ hh ≤ 23 ∧ mm ≤ 59 ∧ ss ≤ 59))

/-- The `datetime(...)` constructor: a value, or a raised `ValueError`. -/
def mkDatetime (y m d hh mm ss : ℕ) : Except Unit PyDatetime :=
  if validDatetimeArgs y m d hh mm ss then Except.ok ⟨y, m, d, hh, mm, ss⟩
  else Except.error ()

/-- What the `date` property produces: a timestamp constructed from a match,
or `datetime.now()` — the wall clock at evaluation, abstracted as `now`. -/
inductive DateValue
  | stamp (dt : PyDatetime)
  | now
deriving DecidableEq, Repr

instance [DecidableEq ε] [DecidableEq α] : DecidableEq (Except ε α) := fun a b =>
  match a, b with
  | .ok x, .ok y =>
    if h : x = y then isTrue (h ▸ rfl) else isFalse (fun hc => h (Except.ok.inj hc))
  | .error e, .error f =>
    if h : e = f then isTrue (h ▸ rfl) else isFalse (fun hc => h (Except.error.inj hc))
  | .ok _, .error _ => isFalse Except.noConfusion
  | .error _, .ok _ => isFalse Except.noConfusion

/-- The `for line in parsed_text_lines` loop of `date`: the first line with
a pattern match returns the timestamp built from the match's groups, with a
missing seconds group defaulting to 0 (`int(... or "00")`), propagating the
`ValueError` when construction fails; with no match anywhere, fall through
to `datetime.now()`. -/
def dateLoop : List PyStr → Except Unit DateValue
  | [] => Except.ok DateValue.now
  | line :: rest =>
    match searchDate line with
    | some g =>
      (mkDatetime g.year g.month g.day g.hour g.minute
        ((g.second).getD 0)).map DateValue.stamp
    | none => dateLoop rest

/-- `ReceiptSummary.date`.  On a falsy (absent or empty) line list the
source's loop body never runs and the property returns `datetime.now()`;
`dateLoop` on the empty list coincides with that. -/
def date (s : ReceiptSummary) : Except Unit DateValue :=
  match parsed_text_lines s with
  | some lines => dateLoop lines
  | none => Except.ok DateValue.now

/-- `date` of a freshly built summary over a result. -/
def date_of (results : OCRSpaceResult) : Except Unit DateValue :=
  date (summaryOfResult results)

/-- Spec-side: the groups of the first line containing a date match. -/
def firstDateMatch : List PyStr → Option DateGroups
  | [] => none
  | line :: rest =>
    match searchDate line with
    | some g => some g
    | none => firstDateMatch rest

/-- Claim C1: evaluation of `tableize` at the failing input.  The two lines
share a visual row, so the loop never closes a row-group and the single
(final) row-group is returned in vertical order (left bounds 10 then 5),
violating the claimed internal ordering by `left_bound`: the source has no
trailing finalize step that sorts the last open row-group. -/
theorem tableize_last_row_unsorted :
    tableize ovTwoLines = [[rowLineA, rowLineB]] ∧
    rowLineA.left_bound = 10 ∧ rowLineB.left_bound = 5 ∧
    ¬ rowOrderedByLeftBound [rowLineA, rowLineB] := by decide

/-- The `tableize` loop only moves lines between row-groups (sorting a
row-group as it is closed): flattening its result is a permutation of the
already-consumed groups, the open group and the pending lines. -/
theorem tableizeLoop_flatten_perm :
    ∀ (rest : List OCRSpaceLine) (closed : List (List OCRSpaceLine))
      (cur : List OCRSpaceLine),
    ((tableizeLoop closed cur rest).flatten).Perm (closed.flatten ++ (cur ++ rest)) := by
  intro rest
  induction rest with
  | nil =>
    intro closed cur
    simp [tableizeLoop]
  | cons line rest ih =>
    intro closed cur
    match cur with
    | [] =>
      simpa [tableizeLoop] using ih closed [line]
    | anchor :: tl =>
      by_cases h : anchor.is_same_line line = true
      · simpa [tableizeLoop, h] using ih closed (anchor :: tl ++ [line])
      · have h2 := ih (closed ++ [sortRowByLeftBound (anchor :: tl)]) [line]
        simp only [tableizeLoop, h, if_false, List.flatten_append, List.flatten_cons,
          List.flatten_nil, List.append_nil, List.singleton_append] at h2 ⊢
        refine h2.trans ?_
        rw [List.append_assoc]
        exact (List.Perm.append_left closed.flatten
          ((stableSortByLe_perm _ (anchor :: tl)).append (List.Perm.refl (line :: rest))))

/-- Flattening the reconstructed table is a permutation of the overlay's
lines. -/
theorem tableize_flatten_perm (o : OCRSpaceOverlay) :
    ((tableize o).flatten).Perm o.lines := by
  have hs : (o.lines_sorted_by_upperbound).Perm o.lines :=
    stableSortByLe_perm _ o.lines
  unfold tableize
  match hm : o.lines_sorted_by_upperbound with
  | [] =>
    rw [hm] at hs
    simpa using hs
  | l :: rest =>
    rw [hm] at hs
    have h1 := tableizeLoop_flatten_perm rest [] [l]
    simp only [List.flatten_nil, List.nil_append, List.singleton_append] at h1
    exact h1.trans hs

/-- Claim C2: table reconstruction is conservative.  For every overlay whose
lines each contain at least one word (on other overlays the source's sort by
`upper_bound` would compare `None`), the multiset of lines across the output
row-groups equals the input lines, and the total word count is preserved. -/
theorem tableize_conserves_lines (o : OCRSpaceOverlay)
    (_h : ∀ l ∈ o.lines, l.words ≠ []) :
    ((tableize o).flatten).Perm o.lines ∧
    tableWordCount (tableize o) = overlayWordCount o := by
  refine ⟨tableize_flatten_perm o, ?_⟩
  have hsum := ((tableize_flatten_perm o).map (fun l => l.words.length)).sum_eq
  unfold tableWordCount overlayWordCount
  rw [← hsum, List.map_flatten, List.sum_flatten, List.map_map]
  rfl

/-- Witness for claim C2 at the concrete two-line overlay. -/
theorem tableize_conserves_lines_witness :
    ((tableize ovTwoLines).flatten).Perm ovTwoLines.lines ∧
    tableWordCount (tableize ovTwoLines) = overlayWordCount ovTwoLines :=
  tableize_conserves_lines ovTwoLines (by decide)

/-! ## Total-guess claims -/

/-- The inner line scan returns the first value extracted under the pattern,
leaving the running guess unchanged when no line yields a value. -/
theorem total_guess_line_scan_eq (pattern : TotalPattern) (lines : List PyStr)
    (acc : Option ℕ) :
    total_guess_line_scan pattern lines acc =
      match patternExtract pattern lines with
      | some v => some v
      | none => acc := by
  induction lines with
  | nil => rfl
  | cons line rest ih =>
    simp only [total_guess_line_scan, patternExtract]
    by_cases h1 : patternSearch pattern (pyStrip line) = true
    · simp only [h1, if_true]
      by_cases h2 : (pySplitChar '\t' (pyStrip line)).length > 1
      · simp only [h2, if_true]
        cases searchAmount ((pySplitChar '\t' (pyStrip line)).getLastD []) with
        | some p => rfl
        | none => exact ih
      · simp only [h2, if_false]
        exact ih
    · simp only [h1, if_false]
      exact ih

/-- The outer pattern loop, started from a falsy running guess (`None` or
`0.0`), realizes "first nonzero extraction wins, else the sentinel". -/
theorem total_guess_pattern_scan_spec (lines : List PyStr) :
    ∀ (ps : List TotalPattern) (acc : Option ℕ), acc = none ∨ acc = some 0 →
    totalOrNA (total_guess_pattern_scan lines ps acc) =
      match firstNonzeroExtract lines ps with
      | some v => TotalGuess.num v
      | none => TotalGuess.na := by
  intro ps
  induction ps with
  | nil =>
    intro acc hacc
    rcases hacc with h | h <;> subst h <;> rfl
  | cons pattern rest ih =>
    intro acc hacc
    simp only [total_guess_pattern_scan, firstNonzeroExtract,
      total_guess_line_scan_eq]
    cases he : patternExtract pattern lines with
    | some v =>
      by_cases hv : v = 0
      · subst hv
        simpa [truthyGuess] using ih (some 0) (Or.inr rfl)
      · simp [truthyGuess, hv, totalOrNA]
    | none =>
      rcases hacc with h | h <;> subst h
      · simpa [truthyGuess] using ih none (Or.inl rfl)
      · simpa [truthyGuess] using ih (some 0) (Or.inr rfl)

/-- Claim C3: evaluation at the failing input.  On a summary over a receipt
with line `TOTALE<TAB>12,50`, `total_guess` computes 12.50 (= 25/2) but the
post-call state is the unchanged input state — in particular
`_cached_total_guess` is still `None`, so the computed guess is never cached
(the source reads the cache but never assigns it).  Two successive calls do
return the identical value, by pure recomputation; and the
`ocrspace_results` setter does reset the cache to `None`. -/
theorem total_guess_not_memoized :
    (total_guess summaryC3).1 = TotalGuess.num 1250
    ∧ (total_guess summaryC3).2 = summaryC3
    ∧ ((total_guess summaryC3).2).cached_total_guess = none
    ∧ (total_guess (total_guess summaryC3).2).1 = (total_guess summaryC3).1
    ∧ (set_ocrspace_results (total_guess summaryC3).2 resultC3b).cached_total_guess
        = none := by decide

/-- Claim C5: counterexample.  On the single line `SUBTOTALE<TAB>9.99`,
splitting on the tab yields TWO columns, not fewer than two: the last column
`9.99` matches the amount shape and `total_guess` returns 9.99, not the
sentinel claimed. -/
theorem subtotale_tab_total_cex :
    total_guess_of (mkResult "SUBTOTALE\t9.99".toList) = TotalGuess.num 999
    ∧ TotalGuess.num 999 ≠ TotalGuess.na := by decide

/-- Claim C5 (amended): on the single line `SUBTOTALE<TAB>9.99` the tab split
yields two columns and `total_guess` returns 9.99; a SUBTOTALE line that
really has fewer than two tab columns (`SUBTOTALE 9.99`, space-separated) is
disqualified and leaves the total at the sentinel. -/
theorem subtotale_tab_total_amended :
    total_guess_of (mkResult "SUBTOTALE\t9.99".toList) = TotalGuess.num 999
    ∧ total_guess_of (mkResult "SUBTOTALE 9.99".toList) = TotalGuess.na := by decide

/-- Claim C6: counterexample.  On the text `TOTALE COMPLESSIVO<TAB>0,00`
followed by `SUBTOTALE<TAB>3,00`, the first pattern matches the first line,
which has two tab columns whose last column parses to 0.0 — by the claim this
would stop both loops and be returned — yet the code returns 3.0: the
`if total_guess:` test is falsy at 0.0, so the pattern loop continues. -/
theorem total_guess_stop_condition_cex :
    patternExtract TotalPattern.totaleComplessivo
        (linesOfResult (mkResult "TOTALE COMPLESSIVO\t0,00\nSUBTOTALE\t3,00".toList))
      = some 0
    ∧ total_guess_of (mkResult "TOTALE COMPLESSIVO\t0,00\nSUBTOTALE\t3,00".toList)
        = TotalGuess.num 300
    ∧ (TotalGuess.num 300 : TotalGuess) ≠ TotalGuess.num 0 := by decide

/-- Claim C6 (amended): for every result with at least one page,
`total_guess` applies the four patterns in order, scanning lines
top-to-bottom, extracting from the last tab column of a matching line with
at least two columns — and returns the FIRST NONZERO extracted value; a
parsed 0.0 does not terminate the pattern loop, and if no nonzero value is
ever extracted the result is the sentinel `"n.a."`. -/
theorem total_guess_matches_spec (results : OCRSpaceResult)
    (h : results.parsed_results ≠ []) :
    total_guess_of results = totalGuessSpec (linesOfResult results) := by
  obtain ⟨prs, ec, errf, ms, url⟩ := results
  cases prs with
  | nil => exact absurd rfl h
  | cons r0 rest =>
    by_cases hl : splitlines r0.parsed_text = []
    · simp [total_guess_of, total_guess, summaryOfResult, set_ocrspace_results,
        parsed_text_lines, linesOfResult, truthyGuess, truthyLines, totalOrNA, hl,
        totalGuessSpec, firstNonzeroExtract, total_guess_patterns, patternExtract]
    · have hspec := total_guess_pattern_scan_spec (splitlines r0.parsed_text)
        total_guess_patterns none (Or.inl rfl)
      simpa [total_guess_of, total_guess, summaryOfResult, set_ocrspace_results,
        parsed_text_lines, linesOfResult, truthyGuess, truthyLines,
        List.isEmpty_eq_true, hl, totalGuessSpec] using hspec

/-- Witness for claim C6 (amended) at the spec's worked example. -/
theorem total_guess_matches_spec_witness :
    total_guess_of resultExample = totalGuessSpec (linesOfResult resultExample)
    ∧ total_guess_of resultExample = TotalGuess.num 1250 :=
  ⟨total_guess_matches_spec resultExample (by decide), by decide⟩

/-- Claim C8: evaluation at the failing input.  `OCRSpaceResult.from_dict`
returns the class object itself and stores the fields in class-level slots:
after a second call with a different decoded response (`OCRExitCode` 2), the
fields read through the previously returned result have changed (exit code
1 became 2, and `parsed_results` was replaced), contradicting the claimed
immutability. -/
theorem result_from_dict_overwrites :
    class_ocr_exit_code (OCRSpaceResult_from_dict resultDictA none) = some 1
    ∧ class_ocr_exit_code
        (OCRSpaceResult_from_dict resultDictB (OCRSpaceResult_from_dict resultDictA none))
      = some 2
    ∧ class_parsed_results
        (OCRSpaceResult_from_dict resultDictB (OCRSpaceResult_from_dict resultDictA none))
      ≠ class_parsed_results (OCRSpaceResult_from_dict resultDictA none)
    ∧ OCRSpaceResult_from_dict resultDictB (OCRSpaceResult_from_dict resultDictA none)
      ≠ OCRSpaceResult_from_dict resultDictA none := by decide

/-- Claim C9: on `TOTALE<TAB>0,00` the anchored TOTALE pattern extracts 0.0,
yet `total_guess` returns the sentinel: the unconditional inner `break` ends
the line loop, but `if total_guess:` is falsy at 0.0 so the pattern loop
continues (appending `SUBTOTALE<TAB>5,00` shows the later patterns still
being scanned, returning 5.0), and `total_guess or "n.a."` turns a final 0.0
into the sentinel; the memoization check treats a cached 0.0 exactly like an
absent cache. -/
theorem total_guess_zero_truthiness :
    total_guess_of (mkResult "TOTALE\t0,00".toList) = TotalGuess.na
    ∧ patternExtract TotalPattern.totaleAnchored
        (linesOfResult (mkResult "TOTALE\t0,00".toList)) = some 0
    ∧ total_guess_of (mkResult "TOTALE\t0,00\nSUBTOTALE\t5,00".toList)
        = TotalGuess.num 500
    ∧ (total_guess ⟨some (mkResult "TOTALE\t0,00".toList), some 0⟩).1
        = (total_guess ⟨some (mkResult "TOTALE\t0,00".toList), none⟩).1 := by decide

/-! ## Vendor claim -/

/-- Claim C4: counterexample.  On `full_text` `"\nSTORE"` the first line is
empty; the claim's first-NON-empty-line reading predicts vendor `"STORE"`,
but the source takes `lines[0]` — the empty first line — cleans it to the
empty string and falls back to the sentinel `"n.a."`. -/
theorem vendor_first_line_cex :
    vendor_of (mkResult "\nSTORE".toList) = TOTAL_GUESS_NOT_AVALABLE_STRING
    ∧ vendorClaimSpec (linesOfResult (mkResult "\nSTORE".toList)) = "STORE".toList
    ∧ TOTAL_GUESS_NOT_AVALABLE_STRING ≠ "STORE".toList := by decide

/-- Claim C4 (amended): for every result with at least one page, the vendor
heuristic takes the FIRST line of `pages[0].full_text` (even when that line
is empty), removes every character that is not a word character or
whitespace, trims the remainder and returns it; when the cleaned first line
is empty or there are no lines at all (in particular when `full_text` is
empty), it returns the sentinel `"n.a."`. -/
theorem vendor_amended (results : OCRSpaceResult)
    (h : results.parsed_results ≠ []) :
    vendor_of results = vendorSpecAmended (linesOfResult results) := by
  obtain ⟨prs, ec, errf, ms, url⟩ := results
  cases prs with
  | nil => exact absurd rfl h
  | cons r0 rest =>
    show vendor (summaryOfResult ⟨r0 :: rest, ec, errf, ms, url⟩)
      = vendorSpecAmended (splitlines r0.parsed_text)
    simp only [vendor, summaryOfResult, set_ocrspace_results, parsed_text_lines,
      vendorSpecAmended]
    cases splitlines r0.parsed_text with
    | nil => rfl
    | cons line0 ls => rfl

/-- Witness for claim C4 (amended) at the spec's worked example. -/
theorem vendor_amended_witness :
    vendor_of resultExample = vendorSpecAmended (linesOfResult resultExample)
    ∧ vendor_of resultExample = "STORE X".toList :=
  ⟨vendor_amended resultExample (by decide), by decide⟩

/-! ## Date claims -/

/-- The date loop returns the timestamp built from the first line's match
when one exists, and `now` otherwise. -/
theorem dateLoop_match (lines : List PyStr) :
    dateLoop lines =
      match firstDateMatch lines with
      | some g =>
        (mkDatetime g.year g.month g.day g.hour g.minute
          ((g.second).getD 0)).map DateValue.stamp
      | none => Except.ok DateValue.now := by
  induction lines with
  | nil => rfl
  | cons line rest ih =>
    simp only [dateLoop, firstDateMatch]
    cases searchDate line with
    | some g => rfl
    | none => exact ih

/-- Claim C7: for every result with at least one page, the date accessor
scans the lines of `pages[0].full_text` in order; when the first
date-pattern match (day/month/year with `-` or `/` separators, hour/minute
with `:` or `.`, optional seconds) has groups that form a valid calendar
timestamp, the accessor returns that timestamp with seconds defaulting to
0; when no line matches, it returns the current wall-clock time. -/
theorem date_accessor_spec (results : OCRSpaceResult)
    (h : results.parsed_results ≠ []) :
    (∀ g : DateGroups, firstDateMatch (linesOfResult results) = some g →
      validDatetimeArgs g.year g.month g.day g.hour g.minute ((g.second).getD 0) →
      date_of results = Except.ok (DateValue.stamp
        ⟨g.year, g.month, g.day, g.hour, g.minute, (g.second).getD 0⟩))
    ∧ (firstDateMatch (linesOfResult results) = none →
      date_of results = Except.ok DateValue.now) := by
  obtain ⟨prs, ec, errf, ms, url⟩ := results
  cases prs with
  | nil => exact absurd rfl h
  | cons r0 rest =>
    have hdate : date_of ⟨r0 :: rest, ec, errf, ms, url⟩
        = dateLoop (splitlines r0.parsed_text) := rfl
    refine ⟨fun g hg hvalid => ?_, fun hnone => ?_⟩
    · have hg2 : firstDateMatch (splitlines r0.parsed_text) = some g := hg
      rw [hdate, dateLoop_match, hg2]
      simp only [mkDatetime, if_pos hvalid, Except.map]
    · have hn2 : firstDateMatch (splitlines r0.parsed_text) = none := hnone
      rw [hdate, dateLoop_match, hn2]

/-- Witness for claim C7: the spec's worked example yields the timestamp
2024-02-01 10:15:00, and a result with empty text yields the wall clock. -/
theorem date_accessor_spec_witness :
    date_of resultExample = Except.ok (DateValue.stamp ⟨2024, 2, 1, 10, 15, 0⟩)
    ∧ date_of (mkResult []) = Except.ok DateValue.now :=
  ⟨(date_accessor_spec resultExample (by decide)).1
      ⟨1, 2, 2024, 10, 15, none⟩ (by decide) (by decide),
    (date_accessor_spec (mkResult []) (by decide)).2 (by decide)⟩

/-- Claim C10: a line matching the date pattern with out-of-range groups
(here month 13) makes the date accessor raise the `datetime` constructor's
`ValueError` instead of returning a value or falling back to the wall
clock; and the wall-clock fallback is returned exactly when no line matches
the pattern at all. -/
theorem date_invalid_match_raises :
    date_of (mkResult "01/13/2024 10:15".toList) = Except.error ()
    ∧ ∀ (results : OCRSpaceResult), results.parsed_results ≠ [] →
      ((date_of results = Except.ok DateValue.now →
          firstDateMatch (linesOfResult results) = none)
        ∧ (firstDateMatch (linesOfResult results) = none →
          date_of results = Except.ok DateValue.now)) := by
  constructor
  · decide
  · intro results h
    obtain ⟨prs, ec, errf, ms, url⟩ := results
    cases prs with
    | nil => exact absurd rfl h
    | cons r0 rest =>
      have hdate : date_of ⟨r0 :: rest, ec, errf, ms, url⟩
          = dateLoop (splitlines r0.parsed_text) := rfl
      constructor
      · intro hnow
        rw [hdate, dateLoop_match] at hnow
        cases hm : firstDateMatch (splitlines r0.parsed_text) with
        | none => exact hm
        | some g =>
          rw [hm] at hnow
          by_cases hv : validDatetimeArgs g.year g.month g.day g.hour g.minute
            ((g.second).getD 0)
          · simp only [mkDatetime, if_pos hv, Except.map] at hnow
            exact absurd (Except.ok.inj hnow) (by simp)
          · simp only [mkDatetime, if_neg hv, Except.map] at hnow
            exact Except.noConfusion hnow
      · intro hnone
        have hn2 : firstDateMatch (splitlines r0.parsed_text) = none := hnone
        rw [hdate, dateLoop_match, hn2]

/-- Witness for claim C10's fallback equivalence at a result with no
date-shaped text. -/
theorem date_invalid_match_raises_witness :
    date_of (mkResult "no date here".toList) = Except.ok DateValue.now :=
  (date_invalid_match_raises.2 (mkResult "no date here".toList) (by decide)).2
    (by decide)
